import Mathlib

/-!
Verification of the configuration-context provider (`RequireConfig.tsx`)
and the link-to-mobile wizard dialog of the goalert web frontend,
via a shallow embedding of the TypeScript source in Lean 4.

JavaScript runtime values flowing through this code are modelled by
the inductive `Value` (the TS annotation is
`boolean | number | string | string[] | null`; `undef` models the
`undefined` produced by a missing object key).  JS numbers appearing
here are always either integers or `NaN` (the only numeric producer is
`parseInt(value, 10)`), so they are modelled by `JSNum`.
Exceptions (`throw new TypeError`) are modelled with `Except String`.
-/

namespace GoAlert

/-- JS numbers reachable in this code: an integer or NaN
(`parseInt(value, 10)` never produces a fractional value). -/
inductive JSNum where
  | int (n : Int)
  | nan
deriving DecidableEq, Repr

/-- Runtime values of the TS type
`Value = boolean | number | string | string[] | null`,
plus `undef` for the `undefined` read from a missing object key. -/
inductive Value where
  | bool (b : Bool)
  | num (n : JSNum)
  | str (s : String)
  | list (xs : List String)
  | null
  | undef
deriving DecidableEq, Repr

/-- JS `Boolean(v)` coercion (truthiness) on the values of `Value`:
`false`, `0`, `NaN`, `""`, `null` and `undefined` are falsy,
arrays are always truthy. -/
def BooleanJS : Value → Bool
  | .bool b => b
  | .num (.int n) => n != 0
  | .num .nan => false
  | .str s => s != ""
  | .list _ => true
  | .null => false
  | .undef => false

/-- Characters JS's `parseInt` skips as leading whitespace. -/
def isJSWhitespace (c : Char) : Bool :=
  c = ' ' || c = '\t' || c = '\n' || c = '\r' || c = '\x0b' || c = '\x0c'

/-- Base-10 value of a list of decimal digit characters. -/
def digitsToNat (l : List Char) : Nat :=
  l.foldl (fun n c => 10 * n + (c.toNat - '0'.toNat)) 0

/-- JS `parseInt(s, 10)`: skip leading whitespace, read an optional
sign, then the longest prefix of decimal digits; `NaN` when there is
no digit. -/
def parseIntJS (s : String) : JSNum :=
  let cs := s.toList.dropWhile isJSWhitespace
  let signed : Int × List Char :=
    match cs with
    | '-' :: rest => (-1, rest)
    | '+' :: rest => (1, rest)
    | _ => (1, cs)
  let digits := signed.2.takeWhile (fun c => c.isDigit)
  if digits.isEmpty then .nan
  else .int (signed.1 * (digitsToNat digits : Int))

/-- Groups of characters between newline separators, in order
(an empty input gives one empty group, a trailing separator a trailing
empty group, matching JS `split`). -/
def splitOnNl (cs : List Char) : List (List Char) :=
  match cs with
  | [] => [[]]
  | c :: rest =>
    if c = '\n' then [] :: splitOnNl rest
    else
      match splitOnNl rest with
      | [] => [[c]]
      | g :: gs => (c :: g) :: gs

/-- JS `s.split('\n')`: the segments of `s` between newline
characters. -/
def splitJS (s : String) : List String :=
  (splitOnNl s.toList).map (fun g => String.mk g)

/-- The four recognized values of the `ConfigType` tag. -/
def knownConfigTypes : List String :=
  ["boolean", "integer", "string", "stringList"]

/-- `parseValue(type, value)` from `RequireConfig.tsx`: falsy tag gives
`null`; `boolean`, `integer`, `string`, `stringList` dispatch to their
parse rules; any other tag throws a `TypeError` (the `.error` case). -/
def parseValue (type : String) (value : String) : Except String Value :=
  if type = "" then .ok .null
  else if type = "boolean" then .ok (.bool (value = "true"))
  else if type = "integer" then .ok (.num (parseIntJS value))
  else if type = "string" then .ok (.str value)
  else if type = "stringList" then
    if value = "" then .ok (.list [])
    else .ok (.list (splitJS value))
  else .error ("unknown config type " ++ type)

/-- `isTrue(value)` from `RequireConfig.tsx`: a list is true when
non-empty, anything else goes through `Boolean(value)`. -/
def isTrue : Value → Bool
  | .list xs => xs.length > 0
  | v => BooleanJS v

/-- One fetched config entry (`ConfigValue` of the GraphQL schema):
an id, a type tag and a raw string value. -/
structure ConfigValue where
  id : String
  type : String
  value : String
deriving DecidableEq, Repr

/-- `mapConfig(value)` from `RequireConfig.tsx`: builds the config
object by assigning `data[v.id] = parseValue(v.type, v.value)` in list
order; a missing key reads as `undefined`.  The JS function propagates
the `TypeError` thrown by `parseValue`, hence the `Except`. -/
def mapConfig (value : List ConfigValue) : Except String (String → Value) :=
  value.foldlM
    (fun data v => do
      let pv ← parseValue v.type v.value
      pure (fun k => if k = v.id then pv else data k))
    (fun _ => .undef)

/-- The fetched `user` object of the context query: `id` and `role`. -/
structure User where
  id : String
  role : String
deriving DecidableEq, Repr

/-- The result of the context GraphQL query; each field may be absent
(`data?.user`, `data?.config`). -/
structure QueryData where
  user : Option User
  config : Option (List ConfigValue)

/-- The value held by `ConfigContext`: the raw config list, the admin
flag and the user id (`null` modelled as `none`). -/
structure ConfigContextValue where
  config : List ConfigValue
  isAdmin : Bool
  userID : Option String
deriving DecidableEq, Repr

/-- The context value built by `ConfigProvider` from the query result
(`data` is `none` while nothing is fetched):
`config: data?.config || []`, `isAdmin: data?.user?.role === 'admin'`,
`userID: data?.user?.id || null` (so an empty-string id collapses to
`null`, and a non-empty array passes `||` unchanged since arrays are
truthy). -/
def ConfigProvider (data : Option QueryData) : ConfigContextValue :=
  { config :=
      match data with
      | some d => match d.config with
        | some c => c
        | none => []
      | none => []
    isAdmin :=
      match data with
      | some d => match d.user with
        | some u => u.role = "admin"
        | none => false
      | none => false
    userID :=
      match data with
      | some d => match d.user with
        | some u => if u.id = "" then none else some u.id
        | none => none
      | none => none }

/-- The record returned by `useSessionInfo`. -/
structure SessionInfo where
  isAdmin : Bool
  userID : Option String
  ready : Bool
deriving DecidableEq, Repr

/-- `useSessionInfo()` reading the given context value:
`ready` is `Boolean(ctx.userID)`, so `null` and `""` are not ready. -/
def useSessionInfo (ctx : ConfigContextValue) : SessionInfo :=
  { isAdmin := ctx.isAdmin
    userID := ctx.userID
    ready :=
      match ctx.userID with
      | none => false
      | some s => s != "" }

/-- The props of `RequireConfig` (the rendered nodes are abstracted to
a type `α`; `else` defaults to `null`, modelled as `none`; `test`
defaults to `isTrue`; the optional `isAdmin` prop is a truthiness
check, so `none`/`false` behave alike and it is modelled as `Bool`). -/
structure RequireConfigProps (α : Type) where
  configID : String
  test : Option (Value → Bool)
  elseNode : Option α
  isAdmin : Bool
  children : α

/-- `RequireConfig(props)`: returns the else-node when admin is
required but the session is not admin, or when a truthy (non-empty)
`configID` is given and the test rejects the parsed config value at
that id; otherwise returns the children.  `config` is the object built
by `useConfig` (a missing key reads as `undefined = .undef`). -/
def RequireConfig {α : Type} (props : RequireConfigProps α)
    (config : String → Value) (isAdmin : Bool) : Option α :=
  let test := props.test.getD isTrue
  if props.isAdmin && !isAdmin then props.elseNode
  else if props.configID != "" && !test (config props.configID) then
    props.elseNode
  else some props.children

/-- The polled `authLinkStatus` GraphQL result (the fields the dialog
reads). -/
structure AuthLinkStatus where
  claimed : Bool
  verified : Bool
deriving DecidableEq, Repr

/-- `claimed = data?.authLinkStatus.claimed ?? ''`: the truthiness of
the claimed flag of the polled data (`''` is falsy). -/
def pollClaimed (data : Option AuthLinkStatus) : Bool :=
  match data with
  | some s => s.claimed
  | none => false

/-- `verified = data?.authLinkStatus.verified ?? ''`: the truthiness of
the verified flag of the polled data (`''` is falsy). -/
def pollVerified (data : Option AuthLinkStatus) : Bool :=
  match data with
  | some s => s.verified
  | none => false

/-- The state of `LinkToMobile` relevant to the polling effects: the
wizard index and the previous values of the two effect dependencies
(`[claimed]` and `[verified]`). -/
structure LinkState where
  index : Nat
  prevClaimed : Bool
  prevVerified : Bool
deriving DecidableEq, Repr

/-- One render of `LinkToMobile` after a new polled query result:
`useEffect(() => { if (claimed) setIndex(1) }, [claimed])` fires when
the `claimed` dependency changed and sets the index to 1 when it is
truthy; the `verified` effect fires likewise and sets the index to 2.
Both effects fire in source order within the same render. -/
def linkStep (st : LinkState) (data : Option AuthLinkStatus) : LinkState :=
  let c := pollClaimed data
  let v := pollVerified data
  let i1 := if c != st.prevClaimed && c then 1 else st.index
  let i2 := if v != st.prevVerified && v then 2 else i1
  { index := i2, prevClaimed := c, prevVerified := v }

/-- The views `slideRenderer` can produce. -/
inductive Slide where
  | claimCodeDisplay
  | verifyCodeFields
  | success
  | retry
  | nullSlide
deriving DecidableEq, Repr

/-- `slideRenderer({ index })` of `LinkToMobile`: the fixed mapping
from wizard index to view. -/
def slideRenderer (index : Nat) : Slide :=
  match index with
  | 0 => .claimCodeDisplay
  | 1 => .verifyCodeFields
  | 2 => .success
  | 3 => .retry
  | _ => .nullSlide

/-! ### Helper lemmas -/

lemma parseValue_empty (value : String) :
    parseValue "" value = .ok .null := rfl

lemma parseValue_boolean (value : String) :
    parseValue "boolean" value = .ok (.bool (value = "true")) := rfl

lemma parseValue_integer (value : String) :
    parseValue "integer" value = .ok (.num (parseIntJS value)) := rfl

lemma parseValue_string (value : String) :
    parseValue "string" value = .ok (.str value) := rfl

lemma parseValue_stringList (value : String) :
    parseValue "stringList" value =
      .ok (.list (if value = "" then [] else splitJS value)) := by
  unfold parseValue
  rw [if_neg (by decide), if_neg (by decide), if_neg (by decide),
    if_neg (by decide), if_pos rfl]
  split <;> rfl

/-! ### The claims -/

/-- C1: for every non-empty config type tag outside
`{boolean, integer, string, stringList}` and every raw string,
`parseValue` throws a `TypeError` (reaches the unrecognized-tag
branch); for every tag in that set it never throws. -/
theorem parseValue_unknown_tag_throws (type value : String) :
    (type ≠ "" → type ∉ knownConfigTypes →
      ∃ msg, parseValue type value = .error msg) ∧
    (type ∈ knownConfigTypes → ∃ v, parseValue type value = .ok v) := by
  constructor
  · intro hne hmem
    simp only [knownConfigTypes, List.mem_cons, List.not_mem_nil,
      or_false, not_or] at hmem
    obtain ⟨h1, h2, h3, h4⟩ := hmem
    refine ⟨"unknown config type " ++ type, ?_⟩
    simp [parseValue, hne, h1, h2, h3, h4]
  · intro hmem
    simp only [knownConfigTypes, List.mem_cons, List.not_mem_nil,
      or_false] at hmem
    rcases hmem with h | h | h | h <;> subst h
    · exact ⟨_, parseValue_boolean value⟩
    · exact ⟨_, parseValue_integer value⟩
    · exact ⟨_, parseValue_string value⟩
    · exact ⟨_, parseValue_stringList value⟩

/-- C1 witness: `parseValue` rejects the tag `"bogus"` and accepts the
tag `"boolean"`. -/
theorem parseValue_unknown_tag_throws_witness :
    (∃ msg, parseValue "bogus" "x" = .error msg) ∧
    (∃ v, parseValue "boolean" "x" = .ok v) :=
  ⟨(parseValue_unknown_tag_throws "bogus" "x").1 (by decide) (by decide),
   (parseValue_unknown_tag_throws "boolean" "x").2 (by decide)⟩

/-- C2: the parse rule is determined solely by the type tag:
`boolean` is true exactly on the raw string `"true"`, `integer` is the
base-10 integer parse, `string` is the identity, and `stringList` is
the empty list on the empty raw string and the newline-split segments
otherwise. -/
theorem parseValue_rules (value : String) :
    parseValue "boolean" value = .ok (.bool (value = "true")) ∧
    parseValue "integer" value = .ok (.num (parseIntJS value)) ∧
    parseValue "string" value = .ok (.str value) ∧
    parseValue "stringList" value =
      .ok (.list (if value = "" then [] else splitJS value)) :=
  ⟨parseValue_boolean value, parseValue_integer value,
   parseValue_string value, parseValue_stringList value⟩

/-- C4: on every known tag and on the falsy tag, `parseValue` returns
(without throwing) a value of one of exactly the five declared shapes:
boolean, number, string, string list, or null. -/
theorem parseValue_value_shapes (type value : String)
    (h : type ∈ knownConfigTypes ∨ type = "") :
    ∃ val, parseValue type value = .ok val ∧
      ((∃ b, val = .bool b) ∨ (∃ n, val = .num n) ∨
        (∃ s, val = .str s) ∨ (∃ xs, val = .list xs) ∨ val = .null) := by
  rcases h with h | h
  · simp only [knownConfigTypes, List.mem_cons, List.not_mem_nil,
      or_false] at h
    rcases h with h | h | h | h <;> subst h
    · exact ⟨_, parseValue_boolean value, Or.inl ⟨_, rfl⟩⟩
    · exact ⟨_, parseValue_integer value, Or.inr (Or.inl ⟨_, rfl⟩)⟩
    · exact ⟨_, parseValue_string value,
        Or.inr (Or.inr (Or.inl ⟨_, rfl⟩))⟩
    · exact ⟨_, parseValue_stringList value,
        Or.inr (Or.inr (Or.inr (Or.inl ⟨_, rfl⟩)))⟩
  · subst h
    exact ⟨_, parseValue_empty value,
      Or.inr (Or.inr (Or.inr (Or.inr rfl)))⟩

/-- C4 witness: at tag `"integer"` and raw string `"7"` the parse
succeeds with a value of number shape. -/
theorem parseValue_value_shapes_witness :
    ∃ val, parseValue "integer" "7" = .ok val ∧
      ((∃ b, val = .bool b) ∨ (∃ n, val = .num n) ∨
        (∃ s, val = .str s) ∨ (∃ xs, val = .list xs) ∨ val = .null) :=
  parseValue_value_shapes "integer" "7" (by decide)

/-- C9: the default test `isTrue` is true on a string list exactly when
the list is non-empty, agrees with JS truthiness (`Boolean`) on every
non-list value, and in particular is false on `null`, `false`, `0`,
`NaN` and the empty string. -/
theorem isTrue_spec :
    (∀ xs : List String, isTrue (.list xs) = true ↔ xs ≠ []) ∧
    (∀ b, isTrue (.bool b) = BooleanJS (.bool b)) ∧
    (∀ n, isTrue (.num n) = BooleanJS (.num n)) ∧
    (∀ s, isTrue (.str s) = BooleanJS (.str s)) ∧
    isTrue .null = BooleanJS .null ∧
    isTrue .undef = BooleanJS .undef ∧
    isTrue .null = false ∧ isTrue (.bool false) = false ∧
    isTrue (.num (.int 0)) = false ∧ isTrue (.num .nan) = false ∧
    isTrue (.str "") = false := by
  refine ⟨?_, fun b => rfl, fun n => rfl, fun s => rfl,
    rfl, rfl, rfl, rfl, by decide, rfl, by decide⟩
  intro xs
  cases xs <;> simp [isTrue]

/-- C5: missing fetched data falls back to defaults instead of an
error: `ConfigProvider` supplies the empty config list when the query
data is absent or has no config, and a null userID when there is no
user; and `parseValue` returns null (no throw) on a missing/falsy
type tag. -/
theorem missing_data_defaults :
    (ConfigProvider none).config = [] ∧
    (ConfigProvider none).userID = none ∧
    (∀ q : QueryData, q.config = none →
      (ConfigProvider (some q)).config = []) ∧
    (∀ q : QueryData, q.user = none →
      (ConfigProvider (some q)).userID = none) ∧
    (∀ raw : String, parseValue "" raw = .ok .null) := by
  refine ⟨rfl, rfl, ?_, ?_, fun raw => parseValue_empty raw⟩
  · intro q hq
    simp [ConfigProvider, hq]
  · intro q hq
    simp [ConfigProvider, hq]

/-- C5 witness: concrete query data with no config list and no user
yields the empty config and a null userID, and the empty tag parses
to null. -/
theorem missing_data_defaults_witness :
    (ConfigProvider (some ⟨none, none⟩)).config = [] ∧
    (ConfigProvider (some ⟨none, none⟩)).userID = none ∧
    parseValue "" "anything" = .ok .null :=
  ⟨missing_data_defaults.2.2.1 ⟨none, none⟩ rfl,
   missing_data_defaults.2.2.2.1 ⟨none, none⟩ rfl,
   missing_data_defaults.2.2.2.2 "anything"⟩

/-- C6 counterexample: the claim says the provided userID equals the
fetched user's id whenever a user is present; but for a present user
whose id is the empty string, `data?.user?.id || null` collapses the
falsy empty string to null, so the provided userID is not
`some ""`. -/
theorem provider_userID_empty_id_counterexample :
    ¬((ConfigProvider (some ⟨some ⟨"", "user"⟩, none⟩)).userID
        = some "") := by
  decide

/-- C6 (amended): the isAdmin flag is true exactly when the fetched
user's role equals `"admin"`; the userID equals the fetched user's id
when a user is present with a non-empty id, and is null otherwise —
including when the user is present but its id is the empty string. -/
theorem provider_accessors (data : Option QueryData) :
    ((ConfigProvider data).isAdmin = true ↔
      ∃ q u, data = some q ∧ q.user = some u ∧ u.role = "admin") ∧
    (∀ q u, data = some q → q.user = some u → u.id ≠ "" →
      (ConfigProvider data).userID = some u.id) ∧
    (∀ q u, data = some q → q.user = some u → u.id = "" →
      (ConfigProvider data).userID = none) ∧
    ((data = none ∨ ∃ q, data = some q ∧ q.user = none) →
      (ConfigProvider data).userID = none) := by
  refine ⟨?_, ?_, ?_, ?_⟩
  · constructor
    · intro h
      rcases data with _ | q
      · exact absurd h (by decide)
      · rcases hq : q.user with _ | u
        · simp [ConfigProvider, hq] at h
        · refine ⟨q, u, rfl, hq, ?_⟩
          simpa [ConfigProvider, hq] using h
    · rintro ⟨q, u, rfl, hu, hrole⟩
      simp [ConfigProvider, hu, hrole]
  · rintro q u rfl hu hid
    simp [ConfigProvider, hu, hid]
  · rintro q u rfl hu hid
    simp [ConfigProvider, hu, hid]
  · rintro (rfl | ⟨q, rfl, hu⟩)
    · rfl
    · simp [ConfigProvider, hu]

/-- C6 witness: a fetched admin user with a non-empty id gives
`isAdmin = true` and `userID = some id`; absent user gives a null
userID. -/
theorem provider_accessors_witness :
    (ConfigProvider (some ⟨some ⟨"u1", "admin"⟩, none⟩)).isAdmin
      = true ∧
    (ConfigProvider (some ⟨some ⟨"u1", "admin"⟩, none⟩)).userID
      = some "u1" ∧
    (ConfigProvider (some ⟨none, none⟩)).userID = none :=
  ⟨(provider_accessors _).1.mpr ⟨_, _, rfl, rfl, rfl⟩,
   (provider_accessors _).2.1 _ ⟨"u1", "admin"⟩ rfl rfl (by decide),
   (provider_accessors (some ⟨none, none⟩)).2.2.2
      (Or.inr ⟨_, rfl, rfl⟩)⟩

/-- C8: `useSessionInfo` reports ready exactly when the context's
userID is a non-null, non-empty string, and ready is a function of the
userID alone — config data does not enter. -/
theorem sessionInfo_ready (ctx ctx2 : ConfigContextValue) :
    ((useSessionInfo ctx).ready = true ↔
      ∃ s, ctx.userID = some s ∧ s ≠ "") ∧
    (ctx.userID = ctx2.userID →
      (useSessionInfo ctx).ready = (useSessionInfo ctx2).ready) := by
  constructor
  · simp only [useSessionInfo]
    match hu : ctx.userID with
    | none => simp
    | some s => simp
  · intro h
    simp [useSessionInfo, h]

/-- C8 witness: a session with config entries but a null user id is
not ready (same ready flag as an empty context), and a non-empty user
id is ready. -/
theorem sessionInfo_ready_witness :
    (useSessionInfo ⟨[⟨"a", "string", "x"⟩], true, none⟩).ready =
      (useSessionInfo ⟨[], false, none⟩).ready ∧
    (useSessionInfo ⟨[], false, some "u1"⟩).ready = true :=
  ⟨(sessionInfo_ready ⟨[⟨"a", "string", "x"⟩], true, none⟩
      ⟨[], false, none⟩).2 rfl,
   (sessionInfo_ready ⟨[], false, some "u1"⟩
      ⟨[], false, some "u1"⟩).1.mpr ⟨"u1", rfl, by decide⟩⟩

/-- C3: the `RequireConfig` gate is pure boolean logic: admin required
but session not admin gives the else-node; otherwise a truthy
(non-empty) configID whose parsed value fails the test (default
`isTrue`) gives the else-node; otherwise the children. -/
theorem RequireConfig_gate {α : Type} (props : RequireConfigProps α)
    (config : String → Value) (isAdmin : Bool) :
    (props.isAdmin = true → isAdmin = false →
      RequireConfig props config isAdmin = props.elseNode) ∧
    ((props.isAdmin = true → isAdmin = true) → props.configID ≠ "" →
      (props.test.getD isTrue) (config props.configID) = false →
      RequireConfig props config isAdmin = props.elseNode) ∧
    ((props.isAdmin = true → isAdmin = true) →
      (props.configID = "" ∨
        (props.test.getD isTrue) (config props.configID) = true) →
      RequireConfig props config isAdmin = some props.children) := by
  refine ⟨?_, ?_, ?_⟩
  · intro hp hs
    simp [RequireConfig, hp, hs]
  · intro hadm hid htest
    have hnot : ¬(props.isAdmin = true ∧ isAdmin = false) := by
      rintro ⟨h1, h2⟩
      rw [hadm h1] at h2
      exact Bool.noConfusion h2
    simp only [RequireConfig]
    rw [if_neg (by simpa using hnot), if_pos (by simp [hid, htest])]
  · intro hadm hok
    have hnot : ¬(props.isAdmin = true ∧ isAdmin = false) := by
      rintro ⟨h1, h2⟩
      rw [hadm h1] at h2
      exact Bool.noConfusion h2
    simp only [RequireConfig]
    rw [if_neg (by simpa using hnot), if_neg (by
      rcases hok with h | h <;> simp [h])]

/-- C3 witness: with admin required and a non-admin session the
else-node is returned; with no admin requirement, a configID whose
value is a truthy boolean lets the children through. -/
theorem RequireConfig_gate_witness :
    RequireConfig (α := Nat) ⟨"F", none, some 7, true, 3⟩
      (fun _ => .bool true) false = some 7 ∧
    RequireConfig (α := Nat) ⟨"F", none, some 7, false, 3⟩
      (fun _ => .bool true) false = some 3 ∧
    RequireConfig (α := Nat) ⟨"F", none, some 7, false, 3⟩
      (fun _ => .bool false) false = some 7 :=
  ⟨(RequireConfig_gate ⟨"F", none, some 7, true, 3⟩
      (fun _ => .bool true) false).1 rfl rfl,
   (RequireConfig_gate ⟨"F", none, some 7, false, 3⟩
      (fun _ => .bool true) false).2.2 (by simp) (Or.inr rfl),
   (RequireConfig_gate ⟨"F", none, some 7, false, 3⟩
      (fun _ => .bool false) false).2.1 (by simp) (by decide) rfl⟩

/-- C7: the wizard index reacts to the polled auth-link status: when a
poll result newly reports `verified` truthy the index becomes 2 (the
success view); when it newly reports `claimed` truthy (and `verified`
does not newly fire) the index becomes 1 (the verify-code view); when
neither flag newly becomes truthy the polling result leaves the index
alone.  `slideRenderer` maps index 1 to the verify-code view and index
2 to the success view. -/
theorem linkStep_spec (st : LinkState) (data : Option AuthLinkStatus) :
    (pollVerified data = true → pollVerified data ≠ st.prevVerified →
      (linkStep st data).index = 2) ∧
    (pollClaimed data = true → pollClaimed data ≠ st.prevClaimed →
      (pollVerified data = true → pollVerified data = st.prevVerified) →
      (linkStep st data).index = 1) ∧
    ((pollClaimed data = true → pollClaimed data = st.prevClaimed) →
      (pollVerified data = true → pollVerified data = st.prevVerified) →
      (linkStep st data).index = st.index) ∧
    slideRenderer 1 = .verifyCodeFields ∧ slideRenderer 2 = .success := by
  obtain ⟨i, pc, pv⟩ := st
  rcases data with _ | ⟨c, v⟩
  · cases pc <;> cases pv <;>
      simp [linkStep, pollClaimed, pollVerified, slideRenderer]
  · cases c <;> cases v <;> cases pc <;> cases pv <;>
      simp [linkStep, pollClaimed, pollVerified, slideRenderer]

/-- C7 witness: from the initial state, a poll result with `claimed`
set moves the index to 1; from there, a result with `verified` set
moves it to 2. -/
theorem linkStep_spec_witness :
    (linkStep ⟨0, false, false⟩ (some ⟨true, false⟩)).index = 1 ∧
    (linkStep ⟨1, true, false⟩ (some ⟨true, true⟩)).index = 2 ∧
    (linkStep ⟨1, true, false⟩ (some ⟨true, false⟩)).index = 1 :=
  ⟨(linkStep_spec ⟨0, false, false⟩ (some ⟨true, false⟩)).2.1
      rfl (by decide) (fun h => absurd h (by decide)),
   (linkStep_spec ⟨1, true, false⟩ (some ⟨true, true⟩)).1
      rfl (by decide),
   (linkStep_spec ⟨1, true, false⟩ (some ⟨true, false⟩)).2.2.1
      (fun _ => rfl) (fun h => absurd h (by decide))⟩

/-- Reads the payload of a successful parse; `.undef` on the error
side (never produced by a successful `parseValue`). -/
def getOk (e : Except String Value) : Value :=
  match e with
  | .ok v => v
  | .error _ => .undef

lemma parseValue_ok_ne_undef (type value : String) (x : Value)
    (h : parseValue type value = .ok x) : x ≠ .undef := by
  unfold parseValue at h
  split at h
  · cases h; exact Value.noConfusion
  · split at h
    · cases h; exact Value.noConfusion
    · split at h
      · cases h; exact Value.noConfusion
      · split at h
        · cases h; exact Value.noConfusion
        · split at h
          · split at h
            · cases h; exact Value.noConfusion
            · cases h; exact Value.noConfusion
          · cases h

lemma mapConfig_go (l : List ConfigValue) (init : String → Value)
    (h : ∀ v ∈ l, ∃ x, parseValue v.type v.value = .ok x) :
    ∃ m, (l.foldlM
        (fun data v => do
          let pv ← parseValue v.type v.value
          pure (fun k => if k = v.id then pv else data k))
        init) = .ok m ∧
      ∀ k, m k = ((l.reverse.find? (fun w => w.id = k)).map
        (fun w => getOk (parseValue w.type w.value))).getD (init k) := by
  induction l generalizing init with
  | nil => exact ⟨init, rfl, fun k => rfl⟩
  | cons v l ih =>
    obtain ⟨x, hx⟩ := h v (List.mem_cons_self v l)
    obtain ⟨m, hm, hmk⟩ :=
      ih (fun k => if k = v.id then x else init k)
        (fun w hw => h w (List.mem_cons_of_mem v hw))
    refine ⟨m, ?_, ?_⟩
    · rw [List.foldlM, hx] at *
      exact hm
    · intro k
      rw [hmk k, List.reverse_cons, List.find?_append]
      rcases hfind : l.reverse.find? (fun w => w.id = k) with _ | w
      · rw [hfind]
        by_cases hvk : v.id = k
        · rw [List.find?_cons_of_pos _ (by simpa using hvk)]
          simp only [Option.map_none', Option.getD_none, Option.none_or,
            Option.map_some', Option.getD_some, hx, getOk]
          rw [if_pos hvk.symm]
        · rw [List.find?_cons_of_neg _ (by simpa using hvk),
            List.find?_nil]
          simp only [Option.map_none', Option.getD_none, Option.none_or]
          rw [if_neg (fun hk => hvk hk.symm)]
      · rw [hfind]
        simp [Option.or]

/-- C10: `mapConfig` (and hence `useConfig`) builds an object whose
keys are exactly the ids appearing in the config list — every other
key reads as `undefined` — each id mapped to the `parseValue` of its
entry, the last occurrence in list order winning when an id
repeats. -/
theorem mapConfig_spec (l : List ConfigValue)
    (h : ∀ v ∈ l, ∃ x, parseValue v.type v.value = .ok x) :
    ∃ m, mapConfig l = .ok m ∧
      (∀ k, m k ≠ .undef ↔ k ∈ l.map (fun v => v.id)) ∧
      (∀ k w, l.reverse.find? (fun v => v.id = k) = some w →
        parseValue w.type w.value = .ok (m k)) := by
  obtain ⟨m, hm, hmk⟩ := mapConfig_go l (fun _ => .undef) h
  refine ⟨m, hm, ?_, ?_⟩
  · intro k
    rw [hmk k]
    rcases hfind : l.reverse.find? (fun w => w.id = k) with _ | w
    · have hnone := List.find?_eq_none.mp hfind
      rw [hfind]
      simp only [Option.map_none', Option.getD_none]
      constructor
      · intro hne; exact absurd rfl hne
      · intro hk
        obtain ⟨v, hv, hid⟩ := List.mem_map.mp hk
        exact absurd (by simp [hid]) (hnone v (List.mem_reverse.mpr hv))
    · rw [hfind]
      simp only [Option.map_some', Option.getD_some]
      have hw := List.mem_reverse.mp (List.mem_of_find?_eq_some hfind)
      have hwk : w.id = k := by simpa using List.find?_some hfind
      obtain ⟨x, hx⟩ := h w hw
      constructor
      · intro _
        exact List.mem_map.mpr ⟨w, hw, hwk⟩
      · intro _
        rw [hx]
        exact parseValue_ok_ne_undef w.type w.value x hx
  · intro k w hfind
    rw [hmk k, hfind, Option.map_some', Option.getD_some]
    have hw := List.mem_reverse.mp (List.mem_of_find?_eq_some hfind)
    obtain ⟨x, hx⟩ := h w hw
    rw [hx]
    rfl

/-- C10 witness: a two-entry list repeating the id `"A"` maps `"A"` to
the parse of the later entry and any other key to `undefined`. -/
theorem mapConfig_spec_witness :
    ∃ m, mapConfig [⟨"A", "string", "x"⟩, ⟨"A", "boolean", "true"⟩]
        = .ok m ∧
      (∀ k, m k ≠ .undef ↔
        k ∈ List.map (fun v => v.id)
          [(⟨"A", "string", "x"⟩ : ConfigValue),
            ⟨"A", "boolean", "true"⟩]) ∧
      (∀ k w,
        (List.reverse [(⟨"A", "string", "x"⟩ : ConfigValue),
            ⟨"A", "boolean", "true"⟩]).find? (fun v => v.id = k)
          = some w →
        parseValue w.type w.value = .ok (m k)) :=
  mapConfig_spec [⟨"A", "string", "x"⟩, ⟨"A", "boolean", "true"⟩]
    (by
      intro v hv
      rw [List.mem_cons] at hv
      rcases hv with h | hv
      · subst h; exact ⟨.str "x", rfl⟩
      · rw [List.mem_cons] at hv
        rcases hv with h | hv
        · subst h; exact ⟨.bool true, rfl⟩
        · exact absurd hv (List.not_mem_nil v))

end GoAlert
